import Mathlib

/-!
Shallow embedding of the moltbook-agent Supabase edge functions:
 * the decision entry point (supabase/functions/post-to-moltbook/index.ts),
 * the scheduled polling run and its postToMoltbook publisher,
 * the regeneration entry point.
External collaborators (the OpenAI chat service, the Moltbook REST API,
the HTTP fetch layer) are modelled as function parameters returning the
response the remote produced; all store logic (draft queue, seen-post
ledger, activity log) is translated directly from the source.
Timestamps are natural numbers (milliseconds since epoch); JavaScript
string falsiness (empty string is falsy) is modelled explicitly.
-/

namespace Moltbook

/-- JS truthiness of an optional string: present and non-empty. -/
def truthyS : Option String → Bool
  | some s => s ≠ ""
  | none => false

/-- JS expression a || b where a is an optional string and b a string. -/
def jsOrS (a : Option String) (b : String) : String :=
  match a with
  | some s => if s = "" then b else s
  | none => b

/-- JS expression a || b where both sides are optional strings. -/
def jsOrOptS (a b : Option String) : Option String :=
  if truthyS a then a else b

inductive DraftType
  | post
  | reply
  deriving DecidableEq, Repr

inductive Status
  | pending
  | approved
  | edited
  | rejected
  | superseded
  | posted
  deriving DecidableEq, Repr

/-- Snapshot of the inbound post stored in a reply draft's context blob. -/
structure OriginalPostSnapshot where
  id : String
  title : String
  content : String
  author : String
  submolt : String
  deriving DecidableEq, Repr

/-- The context column written at draft creation. -/
inductive Context
  | replyCtx (original_post : OriginalPostSnapshot) (generated_at : Nat)
  | postCtx (generated_at : Nat) (trigger : String)
  deriving DecidableEq, Repr

/-- A row of the post_queue table. Column defaults mirror the schema the
code relies on: fresh inserts are pending, attempt 0, everything else null. -/
structure Draft where
  id : Nat
  type : DraftType
  title : Option String := none
  content : String
  submolt : String
  reply_to_post_id : Option String := none
  reply_to_comment_id : Option String := none
  context : Option Context := none
  generation_attempt : Nat := 0
  root_draft_id : Option Nat := none
  status : Status := Status.pending
  final_content : Option String := none
  decided_at : Option Nat := none
  posted_at : Option Nat := none
  moltbook_post_id : Option String := none
  moltbook_comment_id : Option String := none
  created_at : Nat
  deriving DecidableEq, Repr

/-- The details objects attached to activity_log inserts in the source. -/
inductive LogDetails
  | generated (type : String) (to_post : Option String)
  | posted (moltbook_id : Option String)
  | decision (moltbook_id : String) (was_edited : Bool)
  | regenerated (previous_draft_id : Nat) (attempt_number : Nat) (feedback : Option String)
  deriving DecidableEq, Repr

structure ActivityLogEntry where
  action : String
  post_queue_id : Nat
  details : Option LogDetails := none
  deriving DecidableEq, Repr

/-- Singleton agent_config row. -/
structure AgentConfig where
  persona : String := ""
  topics : List String := []
  target_submolts : List String := []
  auto_post : Bool := false
  post_frequency_minutes : Int := 0
  api_key : Option String := none
  deriving DecidableEq, Repr

/-- The persistent store: the draft queue, the seen-post ledger, the
activity log and the config row, plus the id allocator for inserts. -/
structure DB where
  post_queue : List Draft := []
  seen_posts : List String := []
  activity_log : List ActivityLogEntry := []
  agent_config : Option AgentConfig := none
  nextId : Nat := 0
  deriving DecidableEq, Repr

/-- select * from post_queue where id = i single(). -/
def DB.findDraft (db : DB) (i : Nat) : Option Draft :=
  db.post_queue.find? (fun d => d.id == i)

/-- update post_queue set ... where id = i. -/
def DB.updateDraft (db : DB) (i : Nat) (f : Draft → Draft) : DB :=
  { db with post_queue := db.post_queue.map (fun d => if d.id == i then f d else d) }

/-- insert into activity_log. -/
def DB.logActivity (db : DB) (e : ActivityLogEntry) : DB :=
  { db with activity_log := db.activity_log ++ [e] }

/-- insert into post_queue returning the allocated row. -/
def DB.insertDraft (db : DB) (d : Draft) : DB :=
  { db with post_queue := db.post_queue ++ [d], nextId := db.nextId + 1 }

/-- upsert into seen_posts: a no-op when the id is already present. -/
def DB.markSeen (db : DB) (pid : String) : DB :=
  if db.seen_posts.contains pid then db
  else { db with seen_posts := db.seen_posts ++ [pid] }

/-- The api_key read via config?.api_key in the decision handler. -/
def DB.configApiKey (db : DB) : Option String :=
  match db.agent_config with
  | none => none
  | some c => c.api_key

/-! ## Decision entry point (post-to-moltbook/index.ts) -/

structure DecisionRequest where
  draft_id : Option Nat := none
  action : String := ""
  edited_content : Option String := none
  edited_title : Option String := none
  deriving DecidableEq, Repr

inductive DecisionError
  | missingDraftId
  | invalidAction
  | draftNotFound
  | alreadyProcessed (status : Status)
  | apiKeyNotConfigured
  | moltbookApiError (status : Nat) (body : String)
  | jsonParseError (msg : String)
  deriving DecidableEq, Repr

/-- The request body sent to the Moltbook publish API. -/
inductive PublishReq
  | createPost (submolt : String) (title : Option String) (content : String)
  | createComment (reply_to_post_id : Option String) (content : String)
  deriving DecidableEq, Repr

/-- Response of the Moltbook fetch as the decision handler consumes it:
ok flag and HTTP status, the raw text body (read on failure), and the
outcome of parsing the body as JSON and projecting its id field. -/
structure MoltbookResp where
  ok : Bool
  status : Nat
  textBody : String
  jsonId : Except String String
  deriving Repr

structure DecisionResponse where
  action : String
  moltbook_id : Option String := none
  moltbook_url : Option String := none
  deriving DecidableEq, Repr

def allowedActions : List String := ["approve", "reject", "edit"]

def optIdStr : Option String → String
  | some s => s
  | none => "null"

/-- The serve handler of supabase/functions/post-to-moltbook/index.ts,
with the Moltbook publish fetch passed in as a collaborator function. -/
def decisionServe (db : DB) (req : DecisionRequest)
    (publish : PublishReq → MoltbookResp) (now : Nat) :
    DB × Except DecisionError DecisionResponse :=
  match req.draft_id with
  | none => (db, Except.error DecisionError.missingDraftId)
  | some draft_id =>
    if req.action ∈ allowedActions then
      match db.findDraft draft_id with
      | none => (db, Except.error DecisionError.draftNotFound)
      | some draft =>
        if draft.status = Status.pending then
          if req.action = "reject" then
            let db1 := db.updateDraft draft_id (fun d =>
              { d with status := Status.rejected, decided_at := some now })
            let db2 := db1.logActivity
              { action := "rejected", post_queue_id := draft_id, details := none }
            (db2, Except.ok { action := "rejected" })
          else
            if truthyS db.configApiKey then
              let finalContent := jsOrS req.edited_content draft.content
              let finalTitle := jsOrOptS req.edited_title draft.title
              let wasEdited := truthyS req.edited_content || truthyS req.edited_title
              let resp := publish (if draft.type == DraftType.post
                then PublishReq.createPost draft.submolt finalTitle finalContent
                else PublishReq.createComment draft.reply_to_post_id finalContent)
              if resp.ok then
                match resp.jsonId with
                | Except.error m => (db, Except.error (DecisionError.jsonParseError m))
                | Except.ok mid =>
                  let db1 := db.updateDraft draft_id (fun d =>
                    { d with status := if wasEdited then Status.edited else Status.approved,
                             final_content := if wasEdited then some finalContent else none,
                             moltbook_post_id :=
                               if draft.type == DraftType.post then some mid
                               else d.moltbook_post_id,
                             moltbook_comment_id :=
                               if draft.type == DraftType.post then d.moltbook_comment_id
                               else some mid,
                             decided_at := some now,
                             posted_at := some now })
                  let db2 := db1.logActivity
                    { action := if wasEdited then "edited" else "approved",
                      post_queue_id := draft_id,
                      details := some (LogDetails.decision mid wasEdited) }
                  let url := if draft.type == DraftType.post then
                      "https://www.moltbook.com/m/" ++ draft.submolt ++ "/" ++ mid
                    else
                      "https://www.moltbook.com/m/" ++ draft.submolt ++ "/" ++
                        optIdStr draft.reply_to_post_id ++ "#" ++ mid
                  (db2, Except.ok { action := if wasEdited then "edited" else "approved",
                                    moltbook_id := some mid, moltbook_url := some url })
              else
                (db, Except.error (DecisionError.moltbookApiError resp.status resp.textBody))
            else (db, Except.error DecisionError.apiKeyNotConfigured)
        else (db, Except.error (DecisionError.alreadyProcessed draft.status))
    else (db, Except.error DecisionError.invalidAction)

/-! ## Scheduled run (polling edge function) and its publisher -/

/-- A post as returned by the Moltbook feed. -/
structure MoltbookPost where
  id : String
  title : String := ""
  content : String := ""
  submolt : String := ""
  author : String := ""
  created_at : String := ""
  deriving DecidableEq, Repr

inductive RunError
  | openaiKeyMissing
  | configNotFound
  | moltbookKeyMissing
  | openaiError (status : Nat) (body : String)
  | jsonParse (msg : String)
  deriving DecidableEq, Repr

/-- Response of the Moltbook publish fetch as postToMoltbook consumes it:
the body is parsed as JSON unconditionally (before the ok check), and its
id field may be absent. -/
structure PublishResp where
  ok : Bool
  json : Except String (Option String)
  deriving Repr

/-- postToMoltbook from the polling function: looks up the queue row,
calls the publish API, and only on an ok response marks the draft posted
and logs it; a non-ok response with parseable body falls through silently. -/
def postToMoltbook (db : DB) (queueId : Nat)
    (publish : PublishReq → PublishResp) (now : Nat) : DB × Except RunError Unit :=
  match db.findDraft queueId with
  | none => (db, Except.ok ())
  | some draft =>
    let resp := publish (if draft.type == DraftType.post
      then PublishReq.createPost draft.submolt draft.title
        (jsOrS draft.final_content draft.content)
      else PublishReq.createComment draft.reply_to_post_id
        (jsOrS draft.final_content draft.content))
    match resp.json with
    | Except.error m => (db, Except.error (RunError.jsonParse m))
    | Except.ok moltbookId =>
      if resp.ok then
        let db1 := db.updateDraft queueId (fun d =>
          { d with status := Status.posted, posted_at := some now,
                   moltbook_post_id :=
                     if draft.type == DraftType.post then
                       match moltbookId with
                       | some v => some v
                       | none => d.moltbook_post_id
                     else d.moltbook_post_id,
                   moltbook_comment_id :=
                     if draft.type == DraftType.post then d.moltbook_comment_id
                     else
                       match moltbookId with
                       | some v => some v
                       | none => d.moltbook_comment_id })
        let db2 := db1.logActivity
          { action := "posted", post_queue_id := queueId,
            details := some (LogDetails.posted moltbookId) }
        (db2, Except.ok ())
      else (db, Except.ok ())

/-- Whether the second character list starts with the first. -/
def charsStart : List Char → List Char → Bool
  | [], _ => true
  | _ :: _, [] => false
  | a :: as, b :: bs => a == b && charsStart as bs

/-- Substring containment on character lists, the semantics of the
JavaScript String.prototype.includes call in checkRelevance. -/
def charsContain (pat : List Char) : List Char → Bool
  | [] => pat.isEmpty
  | a :: t => charsStart pat (a :: t) || charsContain pat t

/-- The last line of checkRelevance: the verdict computed from the text
the generation collaborator returned, response.toLowerCase().includes("yes").
toLowerCase is per-character lowering, applied here on the character list. -/
def relevanceVerdict (response : String) : Bool :=
  charsContain "yes".toList (response.toList.map Char.toLower)

/-- checkRelevance: the outcome of the openaiChat call mapped through the
verdict; a failed collaborator call propagates as the thrown error. -/
def checkRelevance (resp : Except RunError String) : Except RunError Bool :=
  match resp with
  | Except.error e => Except.error e
  | Except.ok r => Except.ok (relevanceVerdict r)

/-- The analyze loop of the scheduled run (for post of newPosts.slice(0,5)):
checks relevance first, then marks the post seen, collecting the relevant
posts. A thrown relevance check aborts the loop before the mark. -/
def relevanceLoop (rel : MoltbookPost → Except RunError String) :
    DB → List MoltbookPost → DB × Except RunError (List MoltbookPost)
  | db, [] => (db, Except.ok [])
  | db, p :: rest =>
    match checkRelevance (rel p) with
    | Except.error e => (db, Except.error e)
    | Except.ok isRelevant =>
      let db1 := db.markSeen p.id
      match relevanceLoop rel db1 rest with
      | (db2, Except.error e) => (db2, Except.error e)
      | (db2, Except.ok tail) =>
        (db2, Except.ok (if isRelevant then p :: tail else tail))

/-- The reply-generation loop of the scheduled run: for each relevant post
generate content, insert a pending reply draft, self-reference the root id,
log "generated", and when auto_post is on immediately invoke the publisher.
Returns the number of drafts created. -/
def replyLoop (gen : MoltbookPost → Except RunError String) (auto_post : Bool)
    (publish : PublishReq → PublishResp) (now : Nat) :
    DB → List MoltbookPost → DB × Except RunError Nat
  | db, [] => (db, Except.ok 0)
  | db, p :: rest =>
    match gen p with
    | Except.error e => (db, Except.error e)
    | Except.ok content =>
      let d : Draft :=
        { id := db.nextId, type := DraftType.reply,
          content := content, submolt := p.submolt,
          reply_to_post_id := some p.id,
          context := some (Context.replyCtx
            { id := p.id, title := p.title, content := p.content,
              author := p.author, submolt := p.submolt } now),
          created_at := now }
      let db1 := db.insertDraft d
      let db2 := db1.updateDraft d.id (fun x => { x with root_draft_id := some d.id })
      let db3 := db2.logActivity
        { action := "generated", post_queue_id := d.id,
          details := some (LogDetails.generated "reply" (some p.id)) }
      match (if auto_post then postToMoltbook db3 d.id publish now
             else (db3, Except.ok ())) with
      | (db4, Except.error e) => (db4, Except.error e)
      | (db4, Except.ok _) =>
        match replyLoop gen auto_post publish now db4 rest with
        | (db5, Except.error e) => (db5, Except.error e)
        | (db5, Except.ok n) => (db5, Except.ok (n + 1))

/-- created_at of the most recent type=post draft (the query ordered by
created_at descending with limit 1), none when no post draft exists. -/
def lastPostCreatedAt (db : DB) : Option Nat :=
  ((db.post_queue.filter (fun d => d.type == DraftType.post)).map
    (fun d => d.created_at)).max?

/-- The source condition (Date.now() - lastPostTime) / 60000 >=
config.post_frequency_minutes, with the division by the positive constant
60000 cleared (exact over the rationals; see cooldown lemmas below), and
the missing-draft case standing for the Infinity that exceeds any finite
cooldown. -/
def cooldownElapsed (db : DB) (now : Nat) (freq : Int) : Bool :=
  match lastPostCreatedAt db with
  | none => true
  | some t => freq * 60000 ≤ (now : Int) - (t : Int)

/-- What generateOriginalPost produced: parsed title and content plus the
randomly selected target submolt. -/
structure OriginalGen where
  title : String
  content : String
  submolt : String
  deriving DecidableEq, Repr

/-- The original-post section of the scheduled run: gated on the cooldown,
generates, inserts a pending post draft, self-references the root id, and
when auto_post is on immediately invokes the publisher. Returns the number
of drafts created by this section. -/
def maybeCreateOriginal (db : DB) (cfg : AgentConfig)
    (genOriginal : Except RunError OriginalGen)
    (publish : PublishReq → PublishResp) (now : Nat) : DB × Except RunError Nat :=
  if cooldownElapsed db now cfg.post_frequency_minutes then
    match genOriginal with
    | Except.error e => (db, Except.error e)
    | Except.ok g =>
      let d : Draft :=
        { id := db.nextId, type := DraftType.post,
          title := some g.title, content := g.content, submolt := g.submolt,
          context := some (Context.postCtx now "scheduled"),
          created_at := now }
      let db1 := db.insertDraft d
      let db2 := db1.updateDraft d.id (fun x => { x with root_draft_id := some d.id })
      match (if cfg.auto_post then postToMoltbook db2 d.id publish now
             else (db2, Except.ok ())) with
      | (db3, Except.error e) => (db3, Except.error e)
      | (db3, Except.ok _) => (db3, Except.ok 1)
  else (db, Except.ok 0)

structure RunSummary where
  posts_checked : Nat
  drafts_created : Nat
  auto_posted : Bool
  deriving DecidableEq, Repr

/-- The serve handler of the scheduled polling edge function. Collaborator
outcomes are parameters: feed s is the parsed post list for a community
(none for a non-ok response, which is skipped), rel p and gen p are the
outcomes of the openaiChat calls inside checkRelevance and generateReply,
genOriginal the outcome of generateOriginalPost (including JSON parsing),
publish the Moltbook publish fetch. -/
def runScheduled (db : DB) (openaiKey : Option String)
    (feed : String → Option (List MoltbookPost))
    (rel : MoltbookPost → Except RunError String)
    (gen : MoltbookPost → Except RunError String)
    (genOriginal : Except RunError OriginalGen)
    (publish : PublishReq → PublishResp)
    (now : Nat) : DB × Except RunError RunSummary :=
  if truthyS openaiKey then
    match db.agent_config with
    | none => (db, Except.error RunError.configNotFound)
    | some cfg =>
      if truthyS cfg.api_key then
        let posts := cfg.target_submolts.foldl
          (fun acc s => acc ++ ((feed s).getD [])) []
        let newPosts := posts.filter (fun p => !(db.seen_posts.contains p.id))
        match relevanceLoop rel db (newPosts.take 5) with
        | (db1, Except.error e) => (db1, Except.error e)
        | (db1, Except.ok postsToReply) =>
          match replyLoop gen cfg.auto_post publish now db1 postsToReply with
          | (db2, Except.error e) => (db2, Except.error e)
          | (db2, Except.ok nReplies) =>
            match maybeCreateOriginal db2 cfg genOriginal publish now with
            | (db3, Except.error e) => (db3, Except.error e)
            | (db3, Except.ok nOriginal) =>
              (db3, Except.ok { posts_checked := newPosts.length,
                                drafts_created := nReplies + nOriginal,
                                auto_posted := cfg.auto_post })
      else (db, Except.error RunError.moltbookKeyMissing)
  else (db, Except.error RunError.openaiKeyMissing)

/-! ## Regeneration entry point -/

structure RegenRequest where
  draft_id : Option Nat := none
  feedback : Option String := none
  deriving DecidableEq, Repr

inductive RegenError
  | missingDraftId
  | openaiKeyMissing
  | draftNotFound
  | openaiError (status : Nat) (body : String)
  deriving DecidableEq, Repr

/-- Outcome of the regeneration prompt: new body text, and for type=post
the parsed title when the structured parse succeeded (the parse-failure
fallback leaves the title unset and treats the whole response as content). -/
structure GenResult where
  newContent : String
  newTitle : Option String := none
  deriving DecidableEq, Repr

/-- The serve handler of the regenerate edge function. The prompt build
and openaiChat call (plus the JSON parse fallback for type=post) are the
external text-generation collaborator, modelled as the generate parameter,
which receives the original draft, the previous attempts in its lineage
(the root_draft_id query), and the feedback. -/
def regenServe (db : DB) (req : RegenRequest) (openaiKey : Option String)
    (generate : Draft → List Draft → Option String → Except RegenError GenResult)
    (now : Nat) : DB × Except RegenError Draft :=
  match req.draft_id with
  | none => (db, Except.error RegenError.missingDraftId)
  | some draft_id =>
    if truthyS openaiKey then
      match db.findDraft draft_id with
      | none => (db, Except.error RegenError.draftNotFound)
      | some original =>
        let rootId := original.root_draft_id.getD draft_id
        let previousAttempts := db.post_queue.filter
          (fun d => d.root_draft_id == some rootId)
        let attemptNumber := original.generation_attempt + 1
        match generate original previousAttempts req.feedback with
        | Except.error e => (db, Except.error e)
        | Except.ok g =>
          let db1 := db.updateDraft draft_id (fun d =>
            { d with status := Status.superseded, decided_at := some now })
          let newDraft : Draft :=
            { id := db1.nextId, type := original.type,
              title := jsOrOptS g.newTitle original.title,
              content := g.newContent, submolt := original.submolt,
              reply_to_post_id := original.reply_to_post_id,
              reply_to_comment_id := original.reply_to_comment_id,
              context := original.context,
              generation_attempt := attemptNumber,
              root_draft_id := some rootId,
              created_at := now }
          let db2 := db1.insertDraft newDraft
          let db3 := db2.logActivity
            { action := "regenerated", post_queue_id := newDraft.id,
              details := some (LogDetails.regenerated draft_id attemptNumber req.feedback) }
          (db3, Except.ok newDraft)
    else (db, Except.error RegenError.openaiKeyMissing)

/-- Number of type=post drafts in the queue. -/
def postDraftCount (db : DB) : Nat :=
  (db.post_queue.filter (fun d => d.type == DraftType.post)).length

/-- The created_at values of the type=post drafts, in queue order. -/
def postCreatedAts (db : DB) : List Nat :=
  ((db.post_queue.filter (fun d => d.type == DraftType.post)).map
    (fun d => d.created_at))

/-! ## Concrete fixtures used by witnesses and counterexamples -/

def wDraft : Draft :=
  { id := 1, type := DraftType.post, title := some "T", content := "C",
    submolt := "m", created_at := 0 }

def wConfig : AgentConfig := { api_key := some "K" }

def wDB : DB := { post_queue := [wDraft], nextId := 2, agent_config := some wConfig }

def wDBnoCfg : DB := { post_queue := [wDraft], nextId := 2 }

def wPubOk : PublishReq → MoltbookResp :=
  fun _ => { ok := true, status := 200, textBody := "", jsonId := Except.ok "rid" }

def wPubFail : PublishReq → MoltbookResp :=
  fun _ => { ok := false, status := 500, textBody := "bad", jsonId := Except.error "nojson" }

def wGen : Draft → List Draft → Option String → Except RegenError GenResult :=
  fun _ _ _ => Except.ok { newContent := "r2" }

def wDBposted : DB :=
  { post_queue := [{ wDraft with status := Status.posted }], nextId := 2 }

def wCfgAuto : AgentConfig :=
  { api_key := some "K", auto_post := true, target_submolts := ["m"],
    post_frequency_minutes := 60 }

def wOldPost : Draft :=
  { id := 0, type := DraftType.post, title := some "old", content := "o",
    submolt := "m", root_draft_id := some 0, created_at := 0 }

def wDBrun : DB :=
  { post_queue := [wOldPost], nextId := 1, agent_config := some wCfgAuto }

def wPost1 : MoltbookPost :=
  { id := "p1", title := "t", content := "c", submolt := "m", author := "a" }

def wFeed : String → Option (List MoltbookPost) := fun _ => some [wPost1]

def wRelYes : MoltbookPost → Except RunError String := fun _ => Except.ok "yes"

def wRelFail : MoltbookPost → Except RunError String :=
  fun _ => Except.error (RunError.openaiError 500 "down")

def wGenReply : MoltbookPost → Except RunError String := fun _ => Except.ok "hi"

def wGenOrigErr : Except RunError OriginalGen :=
  Except.error (RunError.openaiError 500 "unused")

def wGenOrigOk : Except RunError OriginalGen :=
  Except.ok { title := "nt", content := "nc", submolt := "m" }

def wPubSilentFail : PublishReq → PublishResp :=
  fun _ => { ok := false, json := Except.ok none }

def wPubPostOk : PublishReq → PublishResp :=
  fun _ => { ok := true, json := Except.ok (some "mb1") }

def wDBseen : DB := { wDBrun with seen_posts := ["p1"] }

/-! ## General lemmas about the store operations -/

theorem find?_map_comm {α : Type} (l : List α) (g : α → α) (p : α → Bool)
    (h : ∀ x, p (g x) = p x) : (l.map g).find? p = (l.find? p).map g := by
  induction l with
  | nil => rfl
  | cons a t ih =>
    by_cases hpa : p a = true
    · simp [List.find?, h a, hpa]
    · simp only [Bool.not_eq_true] at hpa
      simp [List.find?, h a, hpa, ih]

theorem find?_append_some {α : Type} (l l2 : List α) (p : α → Bool) (a : α)
    (h : l.find? p = some a) : (l ++ l2).find? p = some a := by
  simp [List.find?_append, h]

theorem findDraft_update_of_found (db : DB) (i : Nat) (f : Draft → Draft)
    (d : Draft) (hf : ∀ x, (f x).id = x.id)
    (h : db.findDraft i = some d) :
    (db.updateDraft i f).findDraft i = some (f d) := by
  have hcomm := find?_map_comm db.post_queue
    (fun x => if x.id == i then f x else x) (fun x => x.id == i)
    (by
      intro x
      by_cases hx : (x.id == i) = true
      · simp [hx, hf]
      · simp only [Bool.not_eq_true] at hx
        simp [hx])
  unfold DB.findDraft at h
  have hd := List.find?_some h
  simp only [] at hd
  have hd2 : d.id = i := by simpa using hd
  unfold DB.findDraft DB.updateDraft
  rw [hcomm, h]
  simp [hd2]

theorem findDraft_insert (db : DB) (d0 : Draft) (i : Nat) (d : Draft)
    (h : db.findDraft i = some d) : (db.insertDraft d0).findDraft i = some d := by
  unfold DB.findDraft DB.insertDraft at *
  exact find?_append_some _ _ _ _ h

theorem findDraft_log (db : DB) (e : ActivityLogEntry) (i : Nat) :
    (db.logActivity e).findDraft i = db.findDraft i := rfl

/-! ## Lemmas about the decision entry point -/

theorem decisionAlreadyProcessed (db : DB) (req : DecisionRequest)
    (pub : PublishReq → MoltbookResp) (now : Nat) (i : Nat) (d : Draft)
    (hid : req.draft_id = some i) (hact : req.action ∈ allowedActions)
    (hfind : db.findDraft i = some d) (hst : d.status ≠ Status.pending) :
    decisionServe db req pub now =
      (db, Except.error (DecisionError.alreadyProcessed d.status)) := by
  unfold decisionServe
  rw [hid]
  simp only [hfind, if_pos hact]
  rw [if_neg hst]

theorem existsProcessed (db2 : DB) (req2 : DecisionRequest)
    (pub2 : PublishReq → MoltbookResp) (now2 : Nat) (i : Nat)
    (hid2 : req2.draft_id = some i) (hact2 : req2.action ∈ allowedActions)
    (d2 : Draft) (hfind2 : db2.findDraft i = some d2)
    (hst2 : d2.status ≠ Status.pending) :
    ∃ s, s ≠ Status.pending ∧
      decisionServe db2 req2 pub2 now2 =
        (db2, Except.error (DecisionError.alreadyProcessed s)) :=
  ⟨d2.status, hst2,
    decisionAlreadyProcessed db2 req2 pub2 now2 i d2 hid2 hact2 hfind2 hst2⟩

theorem existsProcessedOfUpdate (db : DB) (i : Nat) (f : Draft → Draft)
    (e : ActivityLogEntry) (db2 : DB)
    (hdb : (db.updateDraft i f).logActivity e = db2)
    (req2 : DecisionRequest) (pub2 : PublishReq → MoltbookResp) (now2 : Nat)
    (hid2 : req2.draft_id = some i) (hact2 : req2.action ∈ allowedActions)
    (d : Draft) (hfind : db.findDraft i = some d)
    (hf : ∀ x, (f x).id = x.id) (hst2 : (f d).status ≠ Status.pending) :
    ∃ s, s ≠ Status.pending ∧
      decisionServe db2 req2 pub2 now2 =
        (db2, Except.error (DecisionError.alreadyProcessed s)) := by
  subst hdb
  refine existsProcessed _ req2 pub2 now2 i hid2 hact2 (f d) ?_ hst2
  rw [findDraft_log]
  exact findDraft_update_of_found db i f d hf hfind

theorem decisionRepeatFails (db : DB) (req : DecisionRequest)
    (pub : PublishReq → MoltbookResp) (now : Nat) (db2 : DB)
    (r : DecisionResponse)
    (hsucc : decisionServe db req pub now = (db2, Except.ok r)) :
    ∀ (req2 : DecisionRequest) (pub2 : PublishReq → MoltbookResp) (now2 : Nat),
      req2.draft_id = req.draft_id → req2.action ∈ allowedActions →
      ∃ s, s ≠ Status.pending ∧
        decisionServe db2 req2 pub2 now2 =
          (db2, Except.error (DecisionError.alreadyProcessed s)) := by
  intro req2 pub2 now2 hid2 hact2
  unfold decisionServe at hsucc
  cases hdid : req.draft_id with
  | none => rw [hdid] at hsucc; simp at hsucc
  | some i =>
    rw [hdid] at hsucc
    rw [hdid] at hid2
    dsimp only [] at hsucc
    split at hsucc
    · split at hsucc
      · simp at hsucc
      · rename_i d hfind
        split at hsucc
        · split at hsucc
          · -- reject branch
            have hdb := congrArg Prod.fst hsucc
            dsimp only [] at hdb
            exact existsProcessedOfUpdate db i _ _ db2 hdb req2 pub2 now2
              hid2 hact2 d hfind (fun x => rfl) (by simp)
          · -- approve/edit branch
            split at hsucc
            · split at hsucc
              · -- type=post
                split at hsucc
                · split at hsucc
                  · simp at hsucc
                  · have hdb := congrArg Prod.fst hsucc
                    dsimp only [] at hdb
                    exact existsProcessedOfUpdate db i _ _ db2 hdb req2 pub2 now2
                      hid2 hact2 d hfind (fun x => rfl) (by split <;> simp)
                · simp at hsucc
              · -- type=reply
                split at hsucc
                · split at hsucc
                  · simp at hsucc
                  · have hdb := congrArg Prod.fst hsucc
                    dsimp only [] at hdb
                    exact existsProcessedOfUpdate db i _ _ db2 hdb req2 pub2 now2
                      hid2 hact2 d hfind (fun x => rfl) (by split <;> simp)
                · simp at hsucc
            · simp at hsucc
        · simp at hsucc
    · simp at hsucc

/-! ## Claim C1 -/

/-- C1: every call to the decision entry point with an action outside
approve/reject/edit, an unknown draft id, or a draft whose status is not
pending fails with an error and leaves the store unchanged; the
not-pending case fails specifically with the already-processed error, and
repeating any valid decision on the same draft id after a first successful
decision fails with an already-processed error while leaving the store
unchanged. -/
theorem decision_guards_and_repeat :
    (∀ (db : DB) (req : DecisionRequest) (pub : PublishReq → MoltbookResp)
        (now i : Nat), req.draft_id = some i → req.action ∉ allowedActions →
        decisionServe db req pub now = (db, Except.error DecisionError.invalidAction))
  ∧ (∀ (db : DB) (req : DecisionRequest) (pub : PublishReq → MoltbookResp)
        (now i : Nat), req.draft_id = some i → req.action ∈ allowedActions →
        db.findDraft i = none →
        decisionServe db req pub now = (db, Except.error DecisionError.draftNotFound))
  ∧ (∀ (db : DB) (req : DecisionRequest) (pub : PublishReq → MoltbookResp)
        (now i : Nat) (d : Draft), req.draft_id = some i →
        req.action ∈ allowedActions → db.findDraft i = some d →
        d.status ≠ Status.pending →
        decisionServe db req pub now =
          (db, Except.error (DecisionError.alreadyProcessed d.status)))
  ∧ (∀ (db : DB) (req : DecisionRequest) (pub : PublishReq → MoltbookResp)
        (now : Nat) (db2 : DB) (r : DecisionResponse),
        decisionServe db req pub now = (db2, Except.ok r) →
        ∀ (req2 : DecisionRequest) (pub2 : PublishReq → MoltbookResp) (now2 : Nat),
          req2.draft_id = req.draft_id → req2.action ∈ allowedActions →
          ∃ s, s ≠ Status.pending ∧
            decisionServe db2 req2 pub2 now2 =
              (db2, Except.error (DecisionError.alreadyProcessed s))) := by
  refine ⟨?_, ?_, ?_, ?_⟩
  · intro db req pub now i hid hact
    unfold decisionServe
    rw [hid]
    dsimp only []
    rw [if_neg hact]
  · intro db req pub now i hid hact hfind
    unfold decisionServe
    rw [hid]
    simp only [hfind, if_pos hact]
  · intro db req pub now i d hid hact hfind hst
    exact decisionAlreadyProcessed db req pub now i d hid hact hfind hst
  · intro db req pub now db2 r hsucc
    exact decisionRepeatFails db req pub now db2 r hsucc

/-- C1 witness: concrete instances of each guard and of the
repeat-after-success behaviour on a one-draft store. -/
theorem decision_guards_and_repeat_witness :
    (decisionServe wDB { draft_id := some 1, action := "zap" } wPubOk 9 =
      (wDB, Except.error DecisionError.invalidAction))
  ∧ (decisionServe wDB { draft_id := some 7, action := "approve" } wPubOk 9 =
      (wDB, Except.error DecisionError.draftNotFound))
  ∧ (decisionServe wDBposted { draft_id := some 1, action := "approve" } wPubOk 9 =
      (wDBposted, Except.error (DecisionError.alreadyProcessed Status.posted)))
  ∧ (∃ s, s ≠ Status.pending ∧
      decisionServe
        (decisionServe wDB { draft_id := some 1, action := "reject" } wPubOk 9).1
        { draft_id := some 1, action := "approve" } wPubOk 10 =
      ((decisionServe wDB { draft_id := some 1, action := "reject" } wPubOk 9).1,
        Except.error (DecisionError.alreadyProcessed s))) := by
  refine ⟨?_, ?_, ?_, ?_⟩
  · exact decision_guards_and_repeat.1 wDB _ wPubOk 9 1 rfl (by decide)
  · exact decision_guards_and_repeat.2.1 wDB _ wPubOk 9 7 rfl (by decide) (by decide)
  · exact decision_guards_and_repeat.2.2.1 wDBposted _ wPubOk 9 1
      { wDraft with status := Status.posted } rfl (by decide) (by decide) (by decide)
  · exact decision_guards_and_repeat.2.2.2 wDB
      { draft_id := some 1, action := "reject" } wPubOk 9 _
      { action := "rejected" } rfl _ wPubOk 10 rfl (by decide)

/-! ## Claim C2 -/

/-- C2: for an approve or edit decision on a pending draft with the
platform credential configured, a failing publish call (non-success
response) makes the whole call fail with the Moltbook API error and leaves
the store - in particular the draft, its status, and all its timestamp and
remote-id fields - completely unchanged. -/
theorem decision_publish_failure_keeps_pending (db : DB) (req : DecisionRequest)
    (pub : PublishReq → MoltbookResp) (now i : Nat) (d : Draft)
    (hid : req.draft_id = some i)
    (hact : req.action = "approve" ∨ req.action = "edit")
    (hfind : db.findDraft i = some d)
    (hpend : d.status = Status.pending)
    (hkey : truthyS db.configApiKey = true)
    (hfail : ∀ r, (pub r).ok = false) :
    ∃ st body, decisionServe db req pub now =
      (db, Except.error (DecisionError.moltbookApiError st body)) := by
  have hmem : req.action ∈ allowedActions := by
    cases hact with
    | inl h => rw [h]; decide
    | inr h => rw [h]; decide
  have hnrej : ¬ req.action = "reject" := by
    cases hact with
    | inl h => rw [h]; decide
    | inr h => rw [h]; decide
  unfold decisionServe
  rw [hid]
  simp only [hfind, if_pos hmem, if_pos hpend, if_neg hnrej, if_pos hkey]
  simp only [hfail]
  exact ⟨_, _, rfl⟩

/-- C2 witness: a concrete approve on a pending draft whose publish
collaborator fails leaves the store unchanged and returns the error. -/
theorem decision_publish_failure_keeps_pending_witness :
    ∃ st body, decisionServe wDB { draft_id := some 1, action := "approve" } wPubFail 9 =
      (wDB, Except.error (DecisionError.moltbookApiError st body)) :=
  decision_publish_failure_keeps_pending wDB
    { draft_id := some 1, action := "approve" } wPubFail 9 1 wDraft rfl
    (Or.inl rfl) (by decide) (by decide) (by decide) (fun r => rfl)

/-! ## Claim C8 -/

theorem decisionRejectEval (db : DB) (req : DecisionRequest)
    (pub : PublishReq → MoltbookResp) (now i : Nat) (d : Draft)
    (hid : req.draft_id = some i) (hact : req.action = "reject")
    (hfind : db.findDraft i = some d) (hpend : d.status = Status.pending) :
    decisionServe db req pub now =
      ((db.updateDraft i (fun x =>
          { x with status := Status.rejected, decided_at := some now })).logActivity
        { action := "rejected", post_queue_id := i, details := none },
       Except.ok { action := "rejected" }) := by
  unfold decisionServe
  rw [hid, hact]
  simp only [hfind, hpend]
  simp
  decide

/-- C8: a reject decision on a pending draft sets exactly the status (to
rejected) and decided_at on that draft, appends a rejected activity-log
entry, mutates nothing else in the store, returns success, and performs no
publish call: the result does not depend on the publish collaborator, and
the call succeeds even on a store with no platform credential configured
(no hypothesis on agent_config or its api_key is needed). -/
theorem decision_reject_behavior (db : DB) (req : DecisionRequest)
    (pub pub2 : PublishReq → MoltbookResp) (now i : Nat) (d : Draft)
    (hid : req.draft_id = some i) (hact : req.action = "reject")
    (hfind : db.findDraft i = some d) (hpend : d.status = Status.pending) :
    (decisionServe db req pub now =
      ((db.updateDraft i (fun x =>
          { x with status := Status.rejected, decided_at := some now })).logActivity
        { action := "rejected", post_queue_id := i, details := none },
       Except.ok { action := "rejected" }))
  ∧ decisionServe db req pub now = decisionServe db req pub2 now :=
  ⟨decisionRejectEval db req pub now i d hid hact hfind hpend,
   (decisionRejectEval db req pub now i d hid hact hfind hpend).trans
     (decisionRejectEval db req pub2 now i d hid hact hfind hpend).symm⟩

/-- C8 witness: a concrete reject on a credential-less store succeeds,
writes only status and decided_at plus the log entry, and is independent
of the publish collaborator. -/
theorem decision_reject_behavior_witness :
    (decisionServe wDBnoCfg { draft_id := some 1, action := "reject" } wPubOk 9 =
      ((wDBnoCfg.updateDraft 1 (fun x =>
          { x with status := Status.rejected, decided_at := some 9 })).logActivity
        { action := "rejected", post_queue_id := 1, details := none },
       Except.ok { action := "rejected" }))
  ∧ decisionServe wDBnoCfg { draft_id := some 1, action := "reject" } wPubOk 9 =
      decisionServe wDBnoCfg { draft_id := some 1, action := "reject" } wPubFail 9 :=
  decision_reject_behavior wDBnoCfg { draft_id := some 1, action := "reject" }
    wPubOk wPubFail 9 1 wDraft rfl rfl rfl rfl

/-! ## Claim C7 -/

/-- C7 counterexample: on a pending draft, the decision entry point called
with action approve but a supplied edited_content results in status
edited with final_content set - not status approved - so an approve
action does not always yield the approved outcome. -/
theorem decision_approve_action_cex :
    ((decisionServe wDB
        { draft_id := some 1, action := "approve", edited_content := some "NEW" }
        wPubOk 9).1.findDraft 1).map Draft.status = some Status.edited
  ∧ ((decisionServe wDB
        { draft_id := some 1, action := "approve", edited_content := some "NEW" }
        wPubOk 9).1.findDraft 1).map Draft.final_content = some (some "NEW")
  ∧ (decisionServe wDB
        { draft_id := some 1, action := "approve", edited_content := some "NEW" }
        wPubOk 9).2 =
      Except.ok
        { action := "edited", moltbook_id := some "rid",
          moltbook_url := some "https://www.moltbook.com/m/m/rid" } :=
  ⟨rfl, rfl, rfl⟩

/-- C7 amended: for every successful approve or edit decision on a pending
draft, the outcome is decided by whether non-empty replacement content or
title was supplied, not by the action literal: with neither supplied the
draft becomes approved with final_content cleared; with either supplied it
becomes edited with final_content set to the effective content (the
supplied edited_content, else the original content); in both cases
decided_at and posted_at are set to now, the remote id is recorded on the
type-appropriate column, and the matching activity-log entry is appended. -/
theorem decision_success_characterization (db : DB) (req : DecisionRequest)
    (pub : PublishReq → MoltbookResp) (now i : Nat) (d : Draft) (mid : String)
    (hid : req.draft_id = some i)
    (hact : req.action = "approve" ∨ req.action = "edit")
    (hfind : db.findDraft i = some d)
    (hpend : d.status = Status.pending)
    (hkey : truthyS db.configApiKey = true)
    (hpub : ∀ r, pub r =
      { ok := true, status := 200, textBody := "", jsonId := Except.ok mid }) :
    decisionServe db req pub now =
      ((db.updateDraft i (fun x =>
          { x with
            status := if (truthyS req.edited_content || truthyS req.edited_title)
              then Status.edited else Status.approved,
            final_content := if (truthyS req.edited_content || truthyS req.edited_title)
              then some (jsOrS req.edited_content d.content) else none,
            moltbook_post_id := if d.type == DraftType.post
              then some mid else x.moltbook_post_id,
            moltbook_comment_id := if d.type == DraftType.post
              then x.moltbook_comment_id else some mid,
            decided_at := some now, posted_at := some now })).logActivity
        { action := if (truthyS req.edited_content || truthyS req.edited_title)
            then "edited" else "approved",
          post_queue_id := i,
          details := some (LogDetails.decision mid
            (truthyS req.edited_content || truthyS req.edited_title)) },
       Except.ok
        { action := if (truthyS req.edited_content || truthyS req.edited_title)
            then "edited" else "approved",
          moltbook_id := some mid,
          moltbook_url := some (if d.type == DraftType.post then
              "https://www.moltbook.com/m/" ++ d.submolt ++ "/" ++ mid
            else
              "https://www.moltbook.com/m/" ++ d.submolt ++ "/" ++
                optIdStr d.reply_to_post_id ++ "#" ++ mid) }) := by
  have hnrej : ¬ req.action = "reject" := by
    cases hact with
    | inl h => rw [h]; decide
    | inr h => rw [h]; decide
  have hmem : req.action ∈ allowedActions := by
    cases hact with
    | inl h => rw [h]; decide
    | inr h => rw [h]; decide
  unfold decisionServe
  rw [hid]
  simp only [hfind, if_pos hmem, if_pos hpend, if_neg hnrej, if_pos hkey, hpub]
  simp

/-- C7 witness: a concrete edit decision with supplied content on a
pending draft evaluates to the edited outcome with all approve effects. -/
theorem decision_success_characterization_witness :
    decisionServe wDB
      { draft_id := some 1, action := "edit", edited_content := some "NEW" } wPubOk 9 =
      ((wDB.updateDraft 1 (fun x =>
          { x with
            status := Status.edited, final_content := some "NEW",
            moltbook_post_id := some "rid",
            moltbook_comment_id := x.moltbook_comment_id,
            decided_at := some 9, posted_at := some 9 })).logActivity
        { action := "edited", post_queue_id := 1,
          details := some (LogDetails.decision "rid" true) },
       Except.ok
        { action := "edited", moltbook_id := some "rid",
          moltbook_url := some "https://www.moltbook.com/m/m/rid" }) :=
  decision_success_characterization wDB
    { draft_id := some 1, action := "edit", edited_content := some "NEW" }
    wPubOk 9 1 wDraft "rid" rfl (Or.inr rfl) rfl rfl (by decide) (fun r => rfl)

/-! ## Claims C3 and C4 (regeneration entry point) -/

/-- C3 counterexample: regenerating from a draft whose status is the
terminal posted does not skip the mark-superseded write: the source
draft comes out with status superseded, its terminal status overwritten. -/
theorem regen_overwrites_terminal_cex :
    ((wDBposted.findDraft 1).map Draft.status = some Status.posted)
  ∧ (((regenServe wDBposted { draft_id := some 1 } (some "k") wGen 50).1.findDraft
        1).map Draft.status = some Status.superseded) :=
  ⟨rfl, rfl⟩

theorem regenSupersedeEval (db : DB) (req : RegenRequest)
    (key : Option String)
    (gen : Draft → List Draft → Option String → Except RegenError GenResult)
    (now i : Nat) (original : Draft) (g : GenResult)
    (hid : req.draft_id = some i) (hkey : truthyS key = true)
    (hfind : db.findDraft i = some original)
    (hgen : gen original (db.post_queue.filter
        (fun d => d.root_draft_id == some (original.root_draft_id.getD i)))
      req.feedback = Except.ok g) :
    (regenServe db req key gen now).1.findDraft i =
      some { original with status := Status.superseded, decided_at := some now } := by
  unfold regenServe
  rw [hid]
  try dsimp only []
  rw [if_pos hkey]
  simp only [hfind]
  try dsimp only []
  rw [hgen]
  try dsimp only []
  rw [findDraft_log]
  apply findDraft_insert
  exact findDraft_update_of_found db i _ original (fun x => rfl) hfind

/-- C3 amended: the mark-superseded step of regeneration is unguarded and
unconditional: for every draft, whatever its current status (including the
terminal posted, rejected, or superseded), a successful regeneration
overwrites the source draft status with superseded and sets decided_at. -/
theorem regen_supersedes_unconditionally (db : DB) (req : RegenRequest)
    (key : Option String)
    (gen : Draft → List Draft → Option String → Except RegenError GenResult)
    (now i : Nat) (original : Draft) (g : GenResult)
    (hid : req.draft_id = some i) (hkey : truthyS key = true)
    (hfind : db.findDraft i = some original)
    (hgen : gen original (db.post_queue.filter
        (fun d => d.root_draft_id == some (original.root_draft_id.getD i)))
      req.feedback = Except.ok g) :
    (regenServe db req key gen now).1.findDraft i =
      some { original with status := Status.superseded, decided_at := some now } :=
  regenSupersedeEval db req key gen now i original g hid hkey hfind hgen

/-- C3 amended witness: a concrete regeneration of a posted draft leaves
the source draft superseded with decided_at set. -/
theorem regen_supersedes_unconditionally_witness :
    (regenServe wDBposted { draft_id := some 1 } (some "k") wGen 50).1.findDraft 1 =
      some { { wDraft with status := Status.posted } with
             status := Status.superseded, decided_at := some 50 } :=
  regen_supersedes_unconditionally wDBposted { draft_id := some 1 } (some "k")
    wGen 50 1 { wDraft with status := Status.posted } { newContent := "r2" }
    rfl rfl rfl rfl

/-- C4: every successful regeneration of a draft inserts a new pending
draft whose generation_attempt is the source attempt plus one, whose
root_draft_id is the source root (or the source id when the root is
unset), carrying forward the source type, reply-target linkage and
context unchanged; the source draft is marked superseded, and a
regenerated activity-log entry referencing the superseded draft id and
the feedback (when given) is appended. -/
theorem regen_lineage (db : DB) (req : RegenRequest) (key : Option String)
    (gen : Draft → List Draft → Option String → Except RegenError GenResult)
    (now i : Nat) (original : Draft) (g : GenResult)
    (hid : req.draft_id = some i) (hkey : truthyS key = true)
    (hfind : db.findDraft i = some original)
    (hgen : gen original (db.post_queue.filter
        (fun d => d.root_draft_id == some (original.root_draft_id.getD i)))
      req.feedback = Except.ok g) :
    ∃ nd, (regenServe db req key gen now).2 = Except.ok nd
      ∧ nd.generation_attempt = original.generation_attempt + 1
      ∧ nd.root_draft_id = some (original.root_draft_id.getD i)
      ∧ nd.type = original.type
      ∧ nd.reply_to_post_id = original.reply_to_post_id
      ∧ nd.reply_to_comment_id = original.reply_to_comment_id
      ∧ nd.context = original.context
      ∧ nd.status = Status.pending
      ∧ ((regenServe db req key gen now).1.findDraft i).map Draft.status =
          some Status.superseded
      ∧ (regenServe db req key gen now).1.activity_log =
          db.activity_log ++
            [{ action := "regenerated", post_queue_id := nd.id,
               details := some (LogDetails.regenerated i
                 (original.generation_attempt + 1) req.feedback) }] := by
  have hsup := regenSupersedeEval db req key gen now i original g
    hid hkey hfind hgen
  unfold regenServe
  unfold regenServe at hsup
  rw [hid]
  rw [hid] at hsup
  try dsimp only []
  try dsimp only [] at hsup
  rw [if_pos hkey]
  rw [if_pos hkey] at hsup
  simp only [hfind]
  simp only [hfind] at hsup
  try dsimp only []
  try dsimp only [] at hsup
  rw [hgen]
  rw [hgen] at hsup
  try dsimp only []
  try dsimp only [] at hsup
  exact ⟨_, rfl, rfl, rfl, rfl, rfl, rfl, rfl, rfl, by rw [hsup]; rfl, rfl⟩

/-- C4 witness: a concrete regeneration produces attempt 1, root pointing
at the source, carried-forward fields, a superseded source and the
regenerated log entry. -/
theorem regen_lineage_witness :
    ∃ nd, (regenServe wDBposted { draft_id := some 1 } (some "k") wGen 50).2 =
        Except.ok nd
      ∧ nd.generation_attempt = 0 + 1
      ∧ nd.root_draft_id = some 1
      ∧ nd.type = DraftType.post
      ∧ nd.reply_to_post_id = none
      ∧ nd.reply_to_comment_id = none
      ∧ nd.context = none
      ∧ nd.status = Status.pending
      ∧ ((regenServe wDBposted { draft_id := some 1 } (some "k") wGen 50).1.findDraft
            1).map Draft.status = some Status.superseded
      ∧ (regenServe wDBposted { draft_id := some 1 } (some "k") wGen 50).1.activity_log =
          [] ++ [{ action := "regenerated", post_queue_id := nd.id,
                   details := some (LogDetails.regenerated 1 (0 + 1) none) }] :=
  regen_lineage wDBposted { draft_id := some 1 } (some "k") wGen 50 1
    { wDraft with status := Status.posted } { newContent := "r2" } rfl rfl rfl rfl

/-! ## Claim C5 (auto-post publisher outcomes) -/

/-- C5 counterexample: with auto_post enabled and a publish collaborator
returning a non-success response (with a parseable body), the scheduled
run reports success while the freshly created draft stays pending: the
publish failure is silently swallowed, not surfaced to the run caller. -/
theorem autopost_failure_swallowed_cex :
    (runScheduled wDBrun (some "ok") wFeed wRelYes wGenReply wGenOrigErr
        wPubSilentFail 600000).2 =
      Except.ok { posts_checked := 1, drafts_created := 1, auto_posted := true }
  ∧ ((runScheduled wDBrun (some "ok") wFeed wRelYes wGenReply wGenOrigErr
        wPubSilentFail 600000).1.findDraft 1).map Draft.status =
      some Status.pending :=
  ⟨rfl, rfl⟩

/-- C5 amended: the publisher invoked immediately by the auto-post branch
behaves as follows: on a success response the draft becomes posted with
posted_at and the type-appropriate remote id recorded and a posted log
entry appended; on a failure response (non-success with parseable body)
the store is left completely unchanged and the publisher returns without
error, so the failure is not surfaced to the caller. -/
theorem postToMoltbook_success_and_silent_failure :
    (∀ (db : DB) (q : Nat) (pub : PublishReq → PublishResp) (now : Nat)
        (d : Draft) (mid : String), db.findDraft q = some d →
        (∀ r, pub r = { ok := true, json := Except.ok (some mid) }) →
        postToMoltbook db q pub now =
          ((db.updateDraft q (fun x =>
              { x with
                status := Status.posted, posted_at := some now,
                moltbook_post_id := if d.type == DraftType.post
                  then some mid else x.moltbook_post_id,
                moltbook_comment_id := if d.type == DraftType.post
                  then x.moltbook_comment_id else some mid })).logActivity
            { action := "posted", post_queue_id := q,
              details := some (LogDetails.posted (some mid)) },
           Except.ok ()))
  ∧ (∀ (db : DB) (q : Nat) (pub : PublishReq → PublishResp) (now : Nat),
        (∀ r, (pub r).ok = false) → (∀ r, ∃ v, (pub r).json = Except.ok v) →
        postToMoltbook db q pub now = (db, Except.ok ())) := by
  constructor
  · intro db q pub now d mid hfind hpub
    unfold postToMoltbook
    simp only [hfind, hpub]
    simp
  · intro db q pub now hfail hjson
    unfold postToMoltbook
    cases hfd : db.findDraft q with
    | none => rfl
    | some d =>
      dsimp only []
      obtain ⟨v, hv⟩ := hjson (if d.type == DraftType.post
        then PublishReq.createPost d.submolt d.title
          (jsOrS d.final_content d.content)
        else PublishReq.createComment d.reply_to_post_id
          (jsOrS d.final_content d.content))
      rw [hv]
      simp only [hfail]
      rfl

/-- C5 amended witness: concrete publish success marks the draft posted
with the remote id; concrete silent failure leaves the store unchanged
and returns without error. -/
theorem postToMoltbook_outcomes_witness :
    postToMoltbook wDB 1 wPubPostOk 9 =
      ((wDB.updateDraft 1 (fun x =>
          { x with
            status := Status.posted, posted_at := some 9,
            moltbook_post_id := some "mb1",
            moltbook_comment_id := x.moltbook_comment_id })).logActivity
        { action := "posted", post_queue_id := 1,
          details := some (LogDetails.posted (some "mb1")) },
       Except.ok ())
  ∧ postToMoltbook wDB 1 wPubSilentFail 9 = (wDB, Except.ok ()) :=
  ⟨postToMoltbook_success_and_silent_failure.1 wDB 1 wPubPostOk 9 wDraft "mb1"
      rfl (fun r => rfl),
   postToMoltbook_success_and_silent_failure.2 wDB 1 wPubSilentFail 9
      (fun r => rfl) (fun r => ⟨none, rfl⟩)⟩

/-! ## Claim C6 (seen-post ledger) -/

theorem markSeen_self_mem (db : DB) (pid : String) :
    pid ∈ (db.markSeen pid).seen_posts := by
  unfold DB.markSeen
  split
  · rename_i h
    simpa [List.contains] using h
  · simp

theorem markSeen_mono (db : DB) (pid q : String) (h : q ∈ db.seen_posts) :
    q ∈ (db.markSeen pid).seen_posts := by
  unfold DB.markSeen
  split
  · exact h
  · simp [h]

theorem relevanceLoop_seen_mono (rel : MoltbookPost → Except RunError String)
    (ps : List MoltbookPost) : ∀ (db : DB) (q : String), q ∈ db.seen_posts →
    q ∈ ((relevanceLoop rel db ps).1).seen_posts := by
  induction ps with
  | nil => intro db q h; exact h
  | cons p rest ih =>
    intro db q h
    unfold relevanceLoop
    cases hc : checkRelevance (rel p) with
    | error e => exact h
    | ok b =>
      dsimp only []
      have hq := ih (db.markSeen p.id) q (markSeen_mono db p.id q h)
      cases hrec : relevanceLoop rel (db.markSeen p.id) rest with
      | mk db2 res =>
        rw [hrec] at hq
        cases res <;> exact hq

theorem relevanceLoop_marks (rel : MoltbookPost → Except RunError String)
    (ps : List MoltbookPost) : ∀ (db : DB),
    (∀ p ∈ ps, ∃ r, rel p = Except.ok r) →
    ∀ p ∈ ps, p.id ∈ ((relevanceLoop rel db ps).1).seen_posts := by
  induction ps with
  | nil => intro db _ p hp; cases hp
  | cons q rest ih =>
    intro db hall p hp
    obtain ⟨r, hr⟩ := hall q (List.mem_cons_self q rest)
    unfold relevanceLoop
    rw [hr]
    dsimp only [checkRelevance]
    have key : ∀ pid, pid ∈ (db.markSeen q.id).seen_posts →
        pid ∈ ((relevanceLoop rel (db.markSeen q.id) rest).1).seen_posts :=
      fun pid hpid => relevanceLoop_seen_mono rel rest (db.markSeen q.id) pid hpid
    cases hp with
    | head =>
      have hq := key q.id (markSeen_self_mem db q.id)
      cases hrec : relevanceLoop rel (db.markSeen q.id) rest with
      | mk db2 res =>
        rw [hrec] at hq
        cases res <;> exact hq
    | tail _ hmem =>
      have hq := ih (db.markSeen q.id)
        (fun x hx => hall x (List.mem_cons_of_mem q hx)) p hmem
      cases hrec : relevanceLoop rel (db.markSeen q.id) rest with
      | mk db2 res =>
        rw [hrec] at hq
        cases res <;> exact hq

/-- C6 counterexample: when the relevance judgment for a post fails, the
scheduled run aborts before persisting the post id to the seen-post
ledger: the run errors and the ledger stays empty, so the same post would
be re-evaluated by a later run. -/
theorem relevance_failure_skips_marking_cex :
    (runScheduled wDBrun (some "ok") wFeed wRelFail wGenReply wGenOrigErr
        wPubPostOk 600000).2 = Except.error (RunError.openaiError 500 "down")
  ∧ (runScheduled wDBrun (some "ok") wFeed wRelFail wGenReply wGenOrigErr
        wPubPostOk 600000).1.seen_posts = [] :=
  ⟨rfl, rfl⟩

/-- C6 amended: within a scheduled run, each processed post id is
persisted to the seen-post ledger after - and only if - its relevance
call returns (whatever the verdict): when every relevance call of the
batch returns, every processed post id ends up in the ledger; and
re-marking an already-seen id is a no-op, not an error. A failing
relevance call aborts the loop before marking that post seen. -/
theorem seen_marking_and_idempotent :
    (∀ (rel : MoltbookPost → Except RunError String) (db : DB)
        (ps : List MoltbookPost),
        (∀ p ∈ ps, ∃ r, rel p = Except.ok r) →
        ∀ p ∈ ps, p.id ∈ ((relevanceLoop rel db ps).1).seen_posts)
  ∧ (∀ (db : DB) (pid : String), db.seen_posts.contains pid = true →
        db.markSeen pid = db) := by
  constructor
  · intro rel db ps hall p hp
    exact relevanceLoop_marks rel ps db hall p hp
  · intro db pid h
    unfold DB.markSeen
    rw [if_pos h]

/-- C6 amended witness: with a relevance collaborator that returns, the
processed post id lands in the ledger; re-marking an already-present id
leaves the store unchanged. -/
theorem seen_marking_and_idempotent_witness :
    wPost1.id ∈ ((relevanceLoop wRelYes wDBrun [wPost1]).1).seen_posts
  ∧ wDBseen.markSeen "p1" = wDBseen :=
  ⟨seen_marking_and_idempotent.1 wRelYes wDBrun [wPost1]
      (fun p _ => ⟨"yes", rfl⟩) wPost1 (List.mem_cons_self wPost1 []),
   seen_marking_and_idempotent.2 wDBseen "p1" (by decide)⟩

/-! ## Claim C9 (post cooldown gate) -/

theorem filterPost_map_pres (l : List Draft) (g : Draft → Draft)
    (ht : ∀ x, (g x).type = x.type) (hc : ∀ x, (g x).created_at = x.created_at) :
    ((l.map g).filter (fun d => d.type == DraftType.post)).map
      (fun d => d.created_at) =
    (l.filter (fun d => d.type == DraftType.post)).map (fun d => d.created_at) := by
  induction l with
  | nil => rfl
  | cons a t ih =>
    simp only [List.map_cons, List.filter_cons, ht, hc]
    split <;> simp [ih, hc]

theorem filterPost_map_update (l : List Draft) (i : Nat) (f : Draft → Draft)
    (ht : ∀ x, (f x).type = x.type) (hc : ∀ x, (f x).created_at = x.created_at) :
    ((l.map (fun d => if d.id == i then f d else d)).filter
      (fun d => d.type == DraftType.post)).map (fun d => d.created_at) =
    (l.filter (fun d => d.type == DraftType.post)).map (fun d => d.created_at) := by
  apply filterPost_map_pres
  · intro x
    by_cases hx : (x.id == i) = true
    · simp [hx, ht]
    · simp only [Bool.not_eq_true] at hx
      simp [hx]
  · intro x
    by_cases hx : (x.id == i) = true
    · simp [hx, hc]
    · simp only [Bool.not_eq_true] at hx
      simp [hx]

theorem postCreatedAts_update (db : DB) (i : Nat) (f : Draft → Draft)
    (ht : ∀ x, (f x).type = x.type) (hc : ∀ x, (f x).created_at = x.created_at) :
    postCreatedAts (db.updateDraft i f) = postCreatedAts db :=
  filterPost_map_update db.post_queue i f ht hc

theorem postCreatedAts_log (db : DB) (e : ActivityLogEntry) :
    postCreatedAts (db.logActivity e) = postCreatedAts db := rfl

theorem postCreatedAts_insert (db : DB) (d : Draft) :
    postCreatedAts (db.insertDraft d) =
      postCreatedAts db ++
        (if d.type == DraftType.post then [d.created_at] else []) := by
  unfold postCreatedAts DB.insertDraft
  rw [List.filter_append, List.map_append]
  split <;> simp_all [List.filter_cons]

theorem postDraftCount_eq (db : DB) :
    postDraftCount db = (postCreatedAts db).length := by
  unfold postDraftCount postCreatedAts
  rw [List.length_map]

theorem postToMoltbook_postCreatedAts (db : DB) (q : Nat)
    (pub : PublishReq → PublishResp) (now : Nat) :
    postCreatedAts (postToMoltbook db q pub now).1 = postCreatedAts db := by
  unfold postToMoltbook
  cases hfd : db.findDraft q with
  | none => rfl
  | some d =>
    dsimp only []
    cases hj : (pub (if d.type == DraftType.post
        then PublishReq.createPost d.submolt d.title
          (jsOrS d.final_content d.content)
        else PublishReq.createComment d.reply_to_post_id
          (jsOrS d.final_content d.content))).json with
    | error m => rfl
    | ok v =>
      dsimp only []
      split
      · split
        · dsimp only []
          rw [postCreatedAts_log, postCreatedAts_update]
          · intro x; rfl
          · intro x; rfl
        · rfl
      · split
        · dsimp only []
          rw [postCreatedAts_log, postCreatedAts_update]
          · intro x; rfl
          · intro x; rfl
        · rfl

theorem postToMoltbook_ok_of_json (db : DB) (q : Nat)
    (pub : PublishReq → PublishResp) (now : Nat)
    (hjson : ∀ r, ∃ v, (pub r).json = Except.ok v) :
    ∃ db4, postToMoltbook db q pub now = (db4, Except.ok ())
      ∧ postCreatedAts db4 = postCreatedAts db := by
  have hpc := postToMoltbook_postCreatedAts db q pub now
  cases hp : postToMoltbook db q pub now with
  | mk db4 res =>
    rw [hp] at hpc
    refine ⟨db4, ?_, hpc⟩
    cases res with
    | ok u => rfl
    | error e =>
      exfalso
      unfold postToMoltbook at hp
      cases hfd : db.findDraft q with
      | none => rw [hfd] at hp; simp at hp
      | some d =>
        rw [hfd] at hp
        dsimp only [] at hp
        obtain ⟨v, hv⟩ := hjson (if d.type == DraftType.post
          then PublishReq.createPost d.submolt d.title
            (jsOrS d.final_content d.content)
          else PublishReq.createComment d.reply_to_post_id
            (jsOrS d.final_content d.content))
        rw [hv] at hp
        dsimp only [] at hp
        split at hp <;> split at hp <;> simp at hp

theorem markSeen_post_queue (db : DB) (pid : String) :
    (db.markSeen pid).post_queue = db.post_queue := by
  unfold DB.markSeen
  split <;> rfl

theorem relevanceLoop_post_queue (rel : MoltbookPost → Except RunError String)
    (ps : List MoltbookPost) : ∀ db : DB,
    ((relevanceLoop rel db ps).1).post_queue = db.post_queue := by
  induction ps with
  | nil => intro db; rfl
  | cons p rest ih =>
    intro db
    unfold relevanceLoop
    cases hc : checkRelevance (rel p) with
    | error e => rfl
    | ok b =>
      dsimp only []
      have hq := ih (db.markSeen p.id)
      cases hrec : relevanceLoop rel (db.markSeen p.id) rest with
      | mk db2 res =>
        rw [hrec] at hq
        rw [markSeen_post_queue] at hq
        cases res <;> exact hq

theorem relevanceLoop_ok (rel : MoltbookPost → Except RunError String)
    (ps : List MoltbookPost) : ∀ db : DB,
    (∀ p ∈ ps, ∃ r, rel p = Except.ok r) →
    ∃ db1 toReply, relevanceLoop rel db ps = (db1, Except.ok toReply)
      ∧ db1.post_queue = db.post_queue := by
  induction ps with
  | nil => intro db _; exact ⟨db, [], rfl, rfl⟩
  | cons p rest ih =>
    intro db hall
    obtain ⟨r, hr⟩ := hall p (List.mem_cons_self p rest)
    obtain ⟨db1, tail, hrec, hq⟩ := ih (db.markSeen p.id)
      (fun x hx => hall x (List.mem_cons_of_mem p hx))
    refine ⟨db1, if relevanceVerdict r then p :: tail else tail, ?_, ?_⟩
    · unfold relevanceLoop
      rw [hr]
      dsimp only [checkRelevance]
      rw [hrec]
    · rw [hq, markSeen_post_queue]

theorem replyLoop_ok (gen : MoltbookPost → Except RunError String)
    (ap : Bool) (pub : PublishReq → PublishResp) (now : Nat)
    (ps : List MoltbookPost) : ∀ db : DB,
    (∀ p ∈ ps, ∃ c, gen p = Except.ok c) →
    (∀ r, ∃ v, (pub r).json = Except.ok v) →
    ∃ db2 n, replyLoop gen ap pub now db ps = (db2, Except.ok n)
      ∧ postCreatedAts db2 = postCreatedAts db := by
  induction ps with
  | nil => intro db _ _; exact ⟨db, 0, rfl, rfl⟩
  | cons p rest ih =>
    intro db hall hjson
    obtain ⟨c, hc⟩ := hall p (List.mem_cons_self p rest)
    have hstep : ∀ db3 : DB, ∃ db4, (if ap then postToMoltbook db3 db.nextId pub now
        else (db3, Except.ok ())) = (db4, Except.ok ())
        ∧ postCreatedAts db4 = postCreatedAts db3 := by
      intro db3
      cases ap with
      | true => simpa using postToMoltbook_ok_of_json db3 db.nextId pub now hjson
      | false => exact ⟨db3, rfl, rfl⟩
    obtain ⟨db4, hif, hpc4⟩ := hstep (((db.insertDraft
        { id := db.nextId, type := DraftType.reply, content := c,
          submolt := p.submolt, reply_to_post_id := some p.id,
          context := some (Context.replyCtx
            { id := p.id, title := p.title, content := p.content,
              author := p.author, submolt := p.submolt } now),
          created_at := now }).updateDraft db.nextId
        (fun x => { x with root_draft_id := some db.nextId })).logActivity
      { action := "generated", post_queue_id := db.nextId,
        details := some (LogDetails.generated "reply" (some p.id)) })
    obtain ⟨db5, n, hrec, hpc5⟩ := ih db4 (fun x hx => hall x (List.mem_cons_of_mem p hx)) hjson
    refine ⟨db5, n + 1, ?_, ?_⟩
    · unfold replyLoop
      rw [hc]
      dsimp only []
      rw [hif]
      dsimp only []
      rw [hrec]
    · rw [hpc5, hpc4, postCreatedAts_log, postCreatedAts_update, postCreatedAts_insert]
      · simp
      · intro x; rfl
      · intro x; rfl

theorem autoStep_ok (ap : Bool) (db3 : DB) (q : Nat)
    (pub : PublishReq → PublishResp) (now : Nat)
    (hjson : ∀ r, ∃ v, (pub r).json = Except.ok v) :
    ∃ db4, (if ap then postToMoltbook db3 q pub now else (db3, Except.ok ())) =
        (db4, Except.ok ())
      ∧ postCreatedAts db4 = postCreatedAts db3 := by
  cases ap with
  | true => simpa using postToMoltbook_ok_of_json db3 q pub now hjson
  | false => exact ⟨db3, rfl, rfl⟩

theorem maybeCreateOriginal_gate_false (db : DB) (cfg : AgentConfig)
    (genO : Except RunError OriginalGen) (pub : PublishReq → PublishResp)
    (now : Nat)
    (hgate : cooldownElapsed db now cfg.post_frequency_minutes = false) :
    maybeCreateOriginal db cfg genO pub now = (db, Except.ok 0) := by
  unfold maybeCreateOriginal
  rw [if_neg (by rw [hgate]; exact Bool.false_ne_true)]

theorem maybeCreateOriginal_ok (db : DB) (cfg : AgentConfig)
    (genO : Except RunError OriginalGen) (pub : PublishReq → PublishResp)
    (now : Nat) (g : OriginalGen)
    (hg : genO = Except.ok g)
    (hjson : ∀ r, ∃ v, (pub r).json = Except.ok v) :
    ∃ db3 k, maybeCreateOriginal db cfg genO pub now = (db3, Except.ok k)
      ∧ postDraftCount db3 = postDraftCount db +
          (if cooldownElapsed db now cfg.post_frequency_minutes then 1 else 0) := by
  by_cases hgate : cooldownElapsed db now cfg.post_frequency_minutes = true
  · unfold maybeCreateOriginal
    rw [if_pos hgate, hg]
    dsimp only []
    obtain ⟨db4, hif, hpc4⟩ := autoStep_ok cfg.auto_post
      ((db.insertDraft
        { id := db.nextId, type := DraftType.post, title := some g.title,
          content := g.content, submolt := g.submolt,
          context := some (Context.postCtx now "scheduled"),
          created_at := now }).updateDraft db.nextId
        (fun x => { x with root_draft_id := some db.nextId }))
      db.nextId pub now hjson
    rw [hif]
    refine ⟨db4, 1, rfl, ?_⟩
    rw [postDraftCount_eq, postDraftCount_eq, hpc4, postCreatedAts_update,
      postCreatedAts_insert]
    · simp [hgate]
    · intro x; rfl
    · intro x; rfl
  · simp only [Bool.not_eq_true] at hgate
    refine ⟨db, 0, maybeCreateOriginal_gate_false db cfg genO pub now hgate, ?_⟩
    simp [hgate]

theorem cooldownElapsed_iff_minutes (db : DB) (now : Nat) (freq : Int) :
    cooldownElapsed db now freq = true ↔
      ∀ t, lastPostCreatedAt db = some t →
        (freq : Rat) ≤ ((now : Rat) - (t : Rat)) / 60000 := by
  unfold cooldownElapsed
  cases hl : lastPostCreatedAt db with
  | none => simp
  | some t =>
    simp only [decide_eq_true_eq, Option.some.injEq]
    constructor
    · intro h t2 ht2
      subst ht2
      rw [le_div_iff (by norm_num : (0 : Rat) < 60000)]
      exact_mod_cast h
    · intro h
      have h2 := h t rfl
      rw [le_div_iff (by norm_num : (0 : Rat) < 60000)] at h2
      exact_mod_cast h2

theorem runScheduled_original_gate (db : DB) (key : Option String)
    (feed : String → Option (List MoltbookPost))
    (rel gen : MoltbookPost → Except RunError String)
    (genO : Except RunError OriginalGen) (pub : PublishReq → PublishResp)
    (now : Nat) (cfg : AgentConfig) (g : OriginalGen)
    (hconf : db.agent_config = some cfg)
    (hkeyT : truthyS key = true)
    (hapi : truthyS cfg.api_key = true)
    (hrel : ∀ p, ∃ r, rel p = Except.ok r)
    (hgen : ∀ p, ∃ c, gen p = Except.ok c)
    (hg : genO = Except.ok g)
    (hjson : ∀ r, ∃ v, (pub r).json = Except.ok v) :
    ∃ db3 s, runScheduled db key feed rel gen genO pub now = (db3, Except.ok s)
      ∧ postDraftCount db3 = postDraftCount db +
          (if cooldownElapsed db now cfg.post_frequency_minutes then 1 else 0) := by
  unfold runScheduled
  rw [if_pos hkeyT]
  simp only [hconf]
  try dsimp only []
  rw [if_pos hapi]
  obtain ⟨db1, toReply, hrl, hq1⟩ := relevanceLoop_ok rel _ db (fun p _ => hrel p)
  rw [hrl]
  dsimp only []
  obtain ⟨db2, n, hrep, hpc2⟩ := replyLoop_ok gen cfg.auto_post pub now toReply db1
    (fun p _ => hgen p) hjson
  rw [hrep]
  dsimp only []
  have hpc1 : postCreatedAts db1 = postCreatedAts db := by
    unfold postCreatedAts
    rw [hq1]
  have hgate2 : cooldownElapsed db2 now cfg.post_frequency_minutes =
      cooldownElapsed db now cfg.post_frequency_minutes := by
    unfold cooldownElapsed
    have hlast : lastPostCreatedAt db2 = lastPostCreatedAt db := by
      have h2 : lastPostCreatedAt db2 = (postCreatedAts db2).max? := rfl
      have h0 : lastPostCreatedAt db = (postCreatedAts db).max? := rfl
      rw [h2, h0, hpc2, hpc1]
    rw [hlast]
  obtain ⟨db3, k, hmc, hcnt⟩ := maybeCreateOriginal_ok db2 cfg genO pub now g hg hjson
  rw [hmc]
  dsimp only []
  refine ⟨db3, _, rfl, ?_⟩
  rw [hcnt, hgate2]
  have hc2 : postDraftCount db2 = postDraftCount db := by
    rw [postDraftCount_eq, postDraftCount_eq, hpc2, hpc1]
  rw [hc2]

/-- C9: the original-post section of a scheduled run creates a type=post
draft exactly when the cooldown gate passes: if the gate is false nothing
is written and zero drafts are created; if generation succeeds, the number
of type=post drafts grows by one exactly when the gate is true; the gate
itself is true exactly when the minutes elapsed since the most recent
type=post draft creation, (now - t)/60000, meet or exceed the configured
cooldown (vacuously true when no prior post draft exists); and a full
scheduled run under successful collaborators grows the type=post draft
count by one exactly when the gate, evaluated on the pre-run store, is
true. -/
theorem scheduled_cooldown_gate :
    (∀ (db : DB) (cfg : AgentConfig) (genO : Except RunError OriginalGen)
        (pub : PublishReq → PublishResp) (now : Nat),
        cooldownElapsed db now cfg.post_frequency_minutes = false →
        maybeCreateOriginal db cfg genO pub now = (db, Except.ok 0))
  ∧ (∀ (db : DB) (cfg : AgentConfig) (genO : Except RunError OriginalGen)
        (pub : PublishReq → PublishResp) (now : Nat) (g : OriginalGen),
        genO = Except.ok g → (∀ r, ∃ v, (pub r).json = Except.ok v) →
        ∃ db3 k, maybeCreateOriginal db cfg genO pub now = (db3, Except.ok k)
          ∧ postDraftCount db3 = postDraftCount db +
              (if cooldownElapsed db now cfg.post_frequency_minutes then 1 else 0))
  ∧ (∀ (db : DB) (now : Nat) (freq : Int),
        cooldownElapsed db now freq = true ↔
          ∀ t, lastPostCreatedAt db = some t →
            (freq : Rat) ≤ ((now : Rat) - (t : Rat)) / 60000)
  ∧ (∀ (db : DB) (key : Option String)
        (feed : String → Option (List MoltbookPost))
        (rel gen : MoltbookPost → Except RunError String)
        (genO : Except RunError OriginalGen) (pub : PublishReq → PublishResp)
        (now : Nat) (cfg : AgentConfig) (g : OriginalGen),
        db.agent_config = some cfg → truthyS key = true →
        truthyS cfg.api_key = true →
        (∀ p, ∃ r, rel p = Except.ok r) → (∀ p, ∃ c, gen p = Except.ok c) →
        genO = Except.ok g → (∀ r, ∃ v, (pub r).json = Except.ok v) →
        ∃ db3 s, runScheduled db key feed rel gen genO pub now =
            (db3, Except.ok s)
          ∧ postDraftCount db3 = postDraftCount db +
              (if cooldownElapsed db now cfg.post_frequency_minutes then 1 else 0)) :=
  ⟨maybeCreateOriginal_gate_false,
   fun db cfg genO pub now g hg hjson =>
     maybeCreateOriginal_ok db cfg genO pub now g hg hjson,
   cooldownElapsed_iff_minutes,
   fun db key feed rel gen genO pub now cfg g hconf hkeyT hapi hrel hgen hg hjson =>
     runScheduled_original_gate db key feed rel gen genO pub now cfg g hconf
       hkeyT hapi hrel hgen hg hjson⟩

/-- C9 witness: with a 60-minute cooldown and the one existing post draft
created 10 minutes before now, the original-post section writes nothing;
with the cooldown elapsed the count law and the run-level law hold at
concrete collaborators; the gate equivalence instantiated concretely. -/
theorem scheduled_cooldown_gate_witness :
    (maybeCreateOriginal wDBrun wCfgAuto wGenOrigOk wPubPostOk 600000 =
      (wDBrun, Except.ok 0))
  ∧ (∃ db3 k, maybeCreateOriginal wDBrun wCfgAuto wGenOrigOk wPubPostOk 3660000 =
        (db3, Except.ok k)
      ∧ postDraftCount db3 = postDraftCount wDBrun +
          (if cooldownElapsed wDBrun 3660000 wCfgAuto.post_frequency_minutes
            then 1 else 0))
  ∧ (cooldownElapsed wDBrun 600000 60 = true ↔
      ∀ t, lastPostCreatedAt wDBrun = some t →
        ((60 : Int) : Rat) ≤ (((600000 : Nat) : Rat) - ((t : Nat) : Rat)) / 60000)
  ∧ (∃ db3 s, runScheduled wDBrun (some "ok") wFeed wRelYes wGenReply wGenOrigOk
        wPubPostOk 600000 = (db3, Except.ok s)
      ∧ postDraftCount db3 = postDraftCount wDBrun +
          (if cooldownElapsed wDBrun 600000 wCfgAuto.post_frequency_minutes
            then 1 else 0)) :=
  ⟨scheduled_cooldown_gate.1 wDBrun wCfgAuto wGenOrigOk wPubPostOk 600000 rfl,
   scheduled_cooldown_gate.2.1 wDBrun wCfgAuto wGenOrigOk wPubPostOk 3660000
     { title := "nt", content := "nc", submolt := "m" } rfl
     (fun r => ⟨some "mb1", rfl⟩),
   scheduled_cooldown_gate.2.2.1 wDBrun 600000 60,
   scheduled_cooldown_gate.2.2.2 wDBrun (some "ok") wFeed wRelYes wGenReply
     wGenOrigOk wPubPostOk 600000 wCfgAuto
     { title := "nt", content := "nc", submolt := "m" } rfl rfl rfl
     (fun p => ⟨"yes", rfl⟩) (fun p => ⟨"hi", rfl⟩) rfl
     (fun r => ⟨some "mb1", rfl⟩)⟩

/-! ## Claim C10 (relevance filter) -/

theorem charsStart_iff (pat : List Char) : ∀ l : List Char,
    charsStart pat l = true ↔ ∃ suf, l = pat ++ suf := by
  induction pat with
  | nil =>
    intro l
    simp [charsStart]
  | cons a as ih =>
    intro l
    cases l with
    | nil =>
      simp [charsStart]
    | cons b bs =>
      simp only [charsStart, Bool.and_eq_true, beq_iff_eq, ih]
      constructor
      · rintro ⟨hab, suf, hsuf⟩
        exact ⟨suf, by simp [hab, hsuf]⟩
      · rintro ⟨suf, hsuf⟩
        simp only [List.cons_append, List.cons.injEq] at hsuf
        exact ⟨hsuf.1.symm, suf, hsuf.2⟩

theorem charsContain_iff (pat : List Char) : ∀ l : List Char,
    charsContain pat l = true ↔ ∃ pre suf, l = pre ++ pat ++ suf := by
  intro l
  induction l with
  | nil =>
    simp only [charsContain, List.isEmpty_iff]
    constructor
    · intro h
      exact ⟨[], [], by simp [h]⟩
    · rintro ⟨pre, suf, h⟩
      rcases List.append_eq_nil.mp (List.append_eq_nil.mp h.symm).1 with ⟨h1, h2⟩
      exact h2
  | cons a t ih =>
    simp only [charsContain, Bool.or_eq_true, charsStart_iff, ih]
    constructor
    · rintro (⟨suf, hsuf⟩ | ⟨pre, suf, h⟩)
      · exact ⟨[], suf, by simp [hsuf]⟩
      · exact ⟨a :: pre, suf, by simp [h]⟩
    · rintro ⟨pre, suf, h⟩
      cases pre with
      | nil =>
        left
        exact ⟨suf, by simpa using h⟩
      | cons c cs =>
        right
        simp only [List.cons_append, List.cons.injEq] at h
        exact ⟨cs, suf, h.2⟩

theorem map_proj_update {β : Type} (l : List Draft) (i : Nat) (f : Draft → Draft)
    (g : Draft → β) (hg : ∀ x, g (f x) = g x) :
    (l.map (fun d => if d.id == i then f d else d)).map g = l.map g := by
  induction l with
  | nil => rfl
  | cons a t ih =>
    rw [List.map_cons, List.map_cons, List.map_cons, ih]
    congr 1
    by_cases hx : (a.id == i) = true
    · simp [hx, hg]
    · simp only [Bool.not_eq_true] at hx
      simp [hx]

theorem insertStep_rtp (db0 : DB) (dNew : Draft) (e : ActivityLogEntry) :
    (((db0.insertDraft dNew).updateDraft db0.nextId
        (fun x => { x with root_draft_id := some db0.nextId })).logActivity
        e).post_queue.map (fun d => d.reply_to_post_id) =
    db0.post_queue.map (fun d => d.reply_to_post_id) ++
      [dNew.reply_to_post_id] := by
  dsimp only [DB.logActivity, DB.updateDraft, DB.insertDraft]
  rw [map_proj_update (db0.post_queue ++ [dNew]) db0.nextId
    (fun x => { x with root_draft_id := some db0.nextId })
    (fun d => d.reply_to_post_id) (fun x => rfl)]
  simp

theorem postToMoltbook_rtp (db : DB) (q : Nat) (pub : PublishReq → PublishResp)
    (now : Nat) :
    ((postToMoltbook db q pub now).1).post_queue.map (fun d => d.reply_to_post_id) =
      db.post_queue.map (fun d => d.reply_to_post_id) := by
  unfold postToMoltbook
  cases hfd : db.findDraft q with
  | none => rfl
  | some d =>
    dsimp only []
    cases hj : (pub (if d.type == DraftType.post
        then PublishReq.createPost d.submolt d.title
          (jsOrS d.final_content d.content)
        else PublishReq.createComment d.reply_to_post_id
          (jsOrS d.final_content d.content))).json with
    | error m => rfl
    | ok v =>
      dsimp only []
      split
      · split
        · dsimp only [DB.logActivity, DB.updateDraft]
          exact map_proj_update db.post_queue q _ _ (fun x => rfl)
        · rfl
      · split
        · dsimp only [DB.logActivity, DB.updateDraft]
          exact map_proj_update db.post_queue q _ _ (fun x => rfl)
        · rfl

theorem autoStep_rtp (ap : Bool) (db3 : DB) (q : Nat)
    (pub : PublishReq → PublishResp) (now : Nat) :
    (((if ap then postToMoltbook db3 q pub now
        else (db3, Except.ok ())) : DB × Except RunError Unit).1).post_queue.map
        (fun d => d.reply_to_post_id) =
      db3.post_queue.map (fun d => d.reply_to_post_id) := by
  cases ap with
  | true => exact postToMoltbook_rtp db3 q pub now
  | false => rfl

theorem replyLoop_links (gen : MoltbookPost → Except RunError String)
    (ap : Bool) (pub : PublishReq → PublishResp) (now : Nat)
    (ps : List MoltbookPost) : ∀ db : DB,
    (∀ p ∈ ps, ∃ c, gen p = Except.ok c) →
    (∀ r, ∃ v, (pub r).json = Except.ok v) →
    ((replyLoop gen ap pub now db ps).1).post_queue.map
        (fun d => d.reply_to_post_id) =
      db.post_queue.map (fun d => d.reply_to_post_id) ++
        ps.map (fun p => some p.id) := by
  induction ps with
  | nil =>
    intro db _ _
    rw [show replyLoop gen ap pub now db [] = (db, Except.ok 0) from rfl]
    simp
  | cons p rest ih =>
    intro db hall hjson
    obtain ⟨c, hc⟩ := hall p (List.mem_cons_self p rest)
    have hstep := autoStep_ok ap (((db.insertDraft
        { id := db.nextId, type := DraftType.reply, content := c,
          submolt := p.submolt, reply_to_post_id := some p.id,
          context := some (Context.replyCtx
            { id := p.id, title := p.title, content := p.content,
              author := p.author, submolt := p.submolt } now),
          created_at := now }).updateDraft db.nextId
        (fun x => { x with root_draft_id := some db.nextId })).logActivity
      { action := "generated", post_queue_id := db.nextId,
        details := some (LogDetails.generated "reply" (some p.id)) })
      db.nextId pub now hjson
    obtain ⟨db4, hif, _⟩ := hstep
    have hrtp4 := autoStep_rtp ap (((db.insertDraft
        { id := db.nextId, type := DraftType.reply, content := c,
          submolt := p.submolt, reply_to_post_id := some p.id,
          context := some (Context.replyCtx
            { id := p.id, title := p.title, content := p.content,
              author := p.author, submolt := p.submolt } now),
          created_at := now }).updateDraft db.nextId
        (fun x => { x with root_draft_id := some db.nextId })).logActivity
      { action := "generated", post_queue_id := db.nextId,
        details := some (LogDetails.generated "reply" (some p.id)) })
      db.nextId pub now
    rw [hif] at hrtp4
    unfold replyLoop
    rw [hc]
    dsimp only []
    rw [hif]
    dsimp only []
    cases hrec : replyLoop gen ap pub now db4 rest with
    | mk db5 res =>
      have hihl := ih db4 (fun x hx => hall x (List.mem_cons_of_mem p hx)) hjson
      rw [hrec] at hihl
      have hfin : db5.post_queue.map (fun d => d.reply_to_post_id) =
          db.post_queue.map (fun d => d.reply_to_post_id) ++
            (some p.id :: rest.map (fun x => some x.id)) := by
        rw [hihl, hrtp4, insertStep_rtp]
        simp
      cases res <;> simpa using hfin

theorem checkRelevance_ok_inv (resp : Except RunError String) (b : Bool)
    (h : checkRelevance resp = Except.ok b) :
    ∃ r, resp = Except.ok r ∧ relevanceVerdict r = b := by
  cases resp with
  | error e => simp [checkRelevance] at h
  | ok r =>
    refine ⟨r, rfl, ?_⟩
    unfold checkRelevance at h
    injection h

theorem relevanceLoop_affirmative (rel : MoltbookPost → Except RunError String)
    (ps : List MoltbookPost) : ∀ (db db1 : DB) (toReply : List MoltbookPost),
    relevanceLoop rel db ps = (db1, Except.ok toReply) →
    ∀ p ∈ toReply, ∃ resp, rel p = Except.ok resp
      ∧ relevanceVerdict resp = true := by
  induction ps with
  | nil =>
    intro db db1 toReply h p hp
    have h2 : ([] : List MoltbookPost) = toReply := by
      unfold relevanceLoop at h
      have := congrArg Prod.snd h
      simpa using this
    rw [← h2] at hp
    cases hp
  | cons q rest ih =>
    intro db db1 toReply h p hp
    unfold relevanceLoop at h
    cases hcr : checkRelevance (rel q) with
    | error e => rw [hcr] at h; simp at h
    | ok b =>
      rw [hcr] at h
      dsimp only [] at h
      cases hrec : relevanceLoop rel (db.markSeen q.id) rest with
      | mk db2 res =>
        rw [hrec] at h
        cases res with
        | error e => simp at h
        | ok tail =>
          dsimp only [] at h
          have htail := ih (db.markSeen q.id) db2 tail (by rw [hrec])
          have h2 : (if b = true then q :: tail else tail) = toReply := by
            have := congrArg Prod.snd h
            simpa using this
          rw [← h2] at hp
          by_cases hb : b = true
          · rw [if_pos hb] at hp
            cases hp with
            | head =>
              obtain ⟨resp, hresp, hverd⟩ := checkRelevance_ok_inv (rel q) b hcr
              exact ⟨resp, hresp, by rw [hverd]; exact hb⟩
            | tail _ hm => exact htail p hm
          · rw [if_neg hb] at hp
            exact htail p hp

/-- C10: the relevance verdict is true exactly when the lowercased
collaborator response contains the affirmative token yes as a substring,
and false for every other response (fail-closed); consequently every post
the analyze loop selects for reply got an affirmative response, and under
successful collaborators the reply loop adds reply drafts exactly for the
selected posts (each new queue row links back to a selected post id), so
no reply draft is ever triggered by a non-affirmative response. -/
theorem relevance_fail_closed :
    (∀ r : String, relevanceVerdict r = true ↔
        ∃ pre suf, r.toList.map Char.toLower = pre ++ "yes".toList ++ suf)
  ∧ (∀ (rel : MoltbookPost → Except RunError String) (ps : List MoltbookPost)
        (db db1 : DB) (toReply : List MoltbookPost),
        relevanceLoop rel db ps = (db1, Except.ok toReply) →
        ∀ p ∈ toReply, ∃ resp, rel p = Except.ok resp
          ∧ relevanceVerdict resp = true)
  ∧ (∀ (gen : MoltbookPost → Except RunError String) (ap : Bool)
        (pub : PublishReq → PublishResp) (now : Nat)
        (ps : List MoltbookPost) (db : DB),
        (∀ p ∈ ps, ∃ c, gen p = Except.ok c) →
        (∀ r, ∃ v, (pub r).json = Except.ok v) →
        ((replyLoop gen ap pub now db ps).1).post_queue.map
            (fun d => d.reply_to_post_id) =
          db.post_queue.map (fun d => d.reply_to_post_id) ++
            ps.map (fun p => some p.id)) :=
  ⟨fun r => charsContain_iff "yes".toList (r.toList.map Char.toLower),
   fun rel ps db db1 toReply h p hp =>
     relevanceLoop_affirmative rel ps db db1 toReply h p hp,
   fun gen ap pub now ps db hall hjson =>
     replyLoop_links gen ap pub now ps db hall hjson⟩

/-- C10 witness: the verdict equivalence instantiated at a response
without the token; the loop-level facts instantiated on a run with an
affirmative response on a one-post batch. -/
theorem relevance_fail_closed_witness :
    (relevanceVerdict "Probably" = true ↔
      ∃ pre suf, "Probably".toList.map Char.toLower =
        pre ++ "yes".toList ++ suf)
  ∧ (∀ p ∈ [wPost1], ∃ resp, wRelYes p = Except.ok resp
      ∧ relevanceVerdict resp = true)
  ∧ ((replyLoop wGenReply true wPubPostOk 600000 wDBrun [wPost1]).1).post_queue.map
        (fun d => d.reply_to_post_id) =
      wDBrun.post_queue.map (fun d => d.reply_to_post_id) ++
        [wPost1].map (fun p => some p.id) :=
  ⟨relevance_fail_closed.1 "Probably",
   relevance_fail_closed.2.1 wRelYes [wPost1] wDBrun (wDBrun.markSeen "p1")
     [wPost1] rfl,
   relevance_fail_closed.2.2 wGenReply true wPubPostOk 600000 [wPost1] wDBrun
     (fun p _ => ⟨"hi", rfl⟩) (fun r => ⟨some "mb1", rfl⟩)⟩

end Moltbook
